import Mathlib

/-!
Shallow embedding of the result-persistence pipeline of the obsidian-slack
repository (src/js/src/utils.ts) and verification of its specified properties.

The TypeScript source contains two revisions of the pipeline:
* the revision taking an authentication cookie (`process_result(cookie, result, vault)` /
  `save_result(cookie, result, vault)`), which serializes the whole result with a
  Map-aware replacer, downloads `file_links` attachments over HTTP and recovers
  from "File already exists" collisions by trash-and-retry; and
* a prior revision (`process_result(result, vault)` / `save_result(result, vault)`)
  which filters the serialized record down to a whitelist of top-level keys and
  writes inline `file_data` attachments, with no collision recovery.

Both are embedded below.  I/O collaborators (the Obsidian vault, `requestUrl`,
`alert`, `new Notice`, the clipboard) are modelled by an explicit file store plus
injectable failure behaviours, and every run produces a trace of collaborator
events, so that call counts, orderings and user-visible outcomes are provable.
All thrown JS exceptions relevant to the pipeline carry a message and are
`Error` instances (`vault.create` / `vault.createBinary` rejections and
`requestUrl` rejections); they are modelled as `Except` errors.
-/

namespace ObsidianSlack

/-- Raw bytes of a fetched attachment (the contents of a JS `ArrayBuffer`). -/
abbrev ByteData := List Nat

/-! ### JS string operations used by the source -/

/-- Does `hay` start with `sub`? (helper for `String.prototype.includes`). -/
def charsMatchAt : List Char → List Char → Bool
  | [], _ => true
  | _ :: _, [] => false
  | a :: as, b :: bs => a == b && charsMatchAt as bs

/-- Does some suffix of the haystack start with `sub`? -/
def charsInclude (sub : List Char) : List Char → Bool
  | [] => charsMatchAt sub []
  | c :: rest => charsMatchAt sub (c :: rest) || charsInclude sub rest

/-- JS `s.includes(sub)`: substring containment on strings. -/
def strIncludes (s sub : String) : Bool := charsInclude sub.toList s.toList

/-- Node's `path.join(a, b)` as used by the source (no `..`/`.` segments occur). -/
def pathJoin (a b : String) : String := a ++ "/" ++ b

/-! ### JS values and `JSON.stringify` -/

/-- JS values as they occur in pipeline results: primitives, plain objects,
arrays, and `Map` instances (`jmap`, with entries in insertion order). -/
inductive JVal where
  | str (s : String)
  | num (n : Int)
  | bool (b : Bool)
  | null
  | obj (fields : List (String × JVal))
  | arr (elems : List JVal)
  | jmap (entries : List (String × JVal))

/- The `replacer` of utils.ts (lines 132-141), fused with the recursive
traversal `JSON.stringify` performs: a `Map` value is replaced by
`\x7bdataType: "Map", value: Array.from(value.entries())\x7d` and the replacer
is applied recursively to everything reachable, exactly as `JSON.stringify`
re-applies the replacer to the properties of the object it returned. -/
mutual

/-- Replacer-aware traversal of `JSON.stringify(·, replacer, ·)`. -/
def normalize : JVal → JVal
  | .str s => .str s
  | .num n => .num n
  | .bool b => .bool b
  | .null => .null
  | .obj fields => .obj (normalizeFields fields)
  | .arr elems => .arr (normalizeElems elems)
  | .jmap entries =>
      .obj [("dataType", .str "Map"), ("value", .arr (normalizeEntries entries))]

def normalizeFields : List (String × JVal) → List (String × JVal)
  | [] => []
  | kv :: rest => (kv.1, normalize kv.2) :: normalizeFields rest

def normalizeElems : List JVal → List JVal
  | [] => []
  | e :: rest => normalize e :: normalizeElems rest

def normalizeEntries : List (String × JVal) → List JVal
  | [] => []
  | kv :: rest => .arr [.str kv.1, normalize kv.2] :: normalizeEntries rest

end

/-- Escape one character for a JSON string literal. -/
def escChar (c : Char) : String :=
  if c = '"' then "\\\""
  else if c = '\\' then "\\\\"
  else if c = '\n' then "\\n"
  else if c = '\t' then "\\t"
  else if c = '\r' then "\\r"
  else String.singleton c

/-- Escape a string for inclusion in JSON output. -/
def escapeString (s : String) : String := String.join (s.toList.map escChar)

/-- Indentation of `n` spaces. -/
def spaces (n : Nat) : String := String.mk (List.replicate n ' ')

/- Pretty-printer half of `JSON.stringify(·, ·, 2)`: renders a replaced value
with two-space indentation.  A raw `Map` (reachable only when no replacer is
used, as in the prior revision) stringifies as an empty object, matching JS,
which sees no own enumerable properties on a `Map`. -/
mutual

/-- Render a JS value as pretty-printed JSON at indentation `ind`. -/
def render (ind : Nat) : JVal → String
  | .str s => "\"" ++ escapeString s ++ "\""
  | .num n => toString n
  | .bool b => Bool.rec "false" "true" b
  | .null => "null"
  | .obj [] => "\x7b\x7d"
  | .obj (f :: fs) =>
      "\x7b\n" ++ renderFields (ind + 2) (f :: fs) ++ "\n" ++ spaces ind ++ "\x7d"
  | .arr [] => "[]"
  | .arr (e :: es) =>
      "[\n" ++ renderElems (ind + 2) (e :: es) ++ "\n" ++ spaces ind ++ "]"
  | .jmap _ => "\x7b\x7d"

def renderFields (ind : Nat) : List (String × JVal) → String
  | [] => ""
  | [kv] => spaces ind ++ "\"" ++ escapeString kv.1 ++ "\": " ++ render ind kv.2
  | kv :: rest =>
      spaces ind ++ "\"" ++ escapeString kv.1 ++ "\": " ++ render ind kv.2 ++ ",\n"
        ++ renderFields ind rest

def renderElems (ind : Nat) : List JVal → String
  | [] => ""
  | [e] => spaces ind ++ render ind e
  | e :: rest => spaces ind ++ render ind e ++ ",\n" ++ renderElems ind rest

end

/-- Model of `JSON.stringify(v, replacer, 2)` (utils.ts line 56). -/
def jsonStringifyReplacer (v : JVal) : String := render 0 (normalize v)

/-- Model of `JSON.stringify(v, undefined, 2)` (the prior revision's call). -/
def jsonStringifyPlain (v : JVal) : String := render 0 v

/-! ### The structured result -/

/-- A structured (non-string) result handed to `process_result`.  Field order
mirrors the insertion order in which the wasm core builds the object:
`message_and_thread`, the optional metadata sub-objects, `file_name`, the
optional attachment-reference `Map` (`file_links`, newer revision) and the
optional inline attachment content object (`file_data`, prior revision). -/
structure SlackResult where
  message_and_thread : JVal
  users : Option JVal := none
  channel : Option JVal := none
  teams : Option JVal := none
  file_name : String
  file_links : Option (List (String × String)) := none
  file_data : Option (List (String × String)) := none

/-- The singleton field list of an optional sub-object. -/
def optField (name : String) (v : Option JVal) : List (String × JVal) :=
  match v with
  | none => []
  | some j => [(name, j)]

/-- The JS object a `SlackResult` presents to `JSON.stringify` and
`Object.keys`: present fields only, in insertion order; `file_links` is a
`Map`, `file_data` a plain object of name → content. -/
def SlackResult.toJVal (r : SlackResult) : JVal :=
  .obj ([("message_and_thread", r.message_and_thread)]
    ++ optField "users" r.users
    ++ optField "channel" r.channel
    ++ optField "teams" r.teams
    ++ [("file_name", .str r.file_name)]
    ++ (match r.file_links with
        | none => []
        | some l => [("file_links", .jmap (l.map fun kv => (kv.1, .str kv.2)))])
    ++ (match r.file_data with
        | none => []
        | some l => [("file_data", .obj (l.map fun kv => (kv.1, .str kv.2)))]))

/-! ### The file store, collaborators, and event traces -/

/-- Stored file contents: the primary record is text, fetched attachments are
binary buffers, inline `file_data` attachments are text. -/
inductive Content where
  | text (s : String)
  | binary (b : ByteData)
deriving DecidableEq, Repr

/-- An Obsidian `TFile` handle, as far as the pipeline inspects it. -/
structure TFile where
  path : String
deriving DecidableEq, Repr

/-- One observable collaborator call made by the pipeline. -/
inductive Ev where
  | getConfig (key : String)
  | createAttempt (path : String) (content : Content) (ok : Bool)
  | listFiles
  | trashed (path : Option String)
  | fetched (url : String) (method : String) (headers : List (String × String))
  | clipboardWrite (s : String)
  | noticeShown (msg : String)
  | alertShown (msg : String)
deriving DecidableEq, Repr

/-- The vault collaborator: the configured attachment root, the stored files in
listing order, plus injectable failure behaviour — `createFault p` makes a
create call on a fresh path `p` reject with the given message (any other I/O
failure), and `fetchResp` is the behaviour of `requestUrl` per URL. -/
structure Vault where
  attachmentFolderPath : String
  files : List (String × Content)
  createFault : String → Option String
  fetchResp : String → Except String ByteData

/-- The message of the error Obsidian's `vault.create`/`createBinary` rejects
with when the target path is taken. -/
def existsMsg : String := "File already exists."

/-- The marker `save_result` greps caught error messages for (utils.ts
lines 61 and 86). -/
def existsMarker : String := "File already exists"

/-- Model of `vault.create` / `vault.createBinary`: rejects when the path is taken,
otherwise subject to the injected fault, otherwise appends the new file. -/
def storeCreate (fault : String → Option String) (files : List (String × Content))
    (p : String) (c : Content) : Except String (List (String × Content)) :=
  if files.any (fun f => f.1 == p) then .error existsMsg
  else
    match fault p with
    | some m => .error m
    | none => .ok (files ++ [(p, c)])

/-- Model of `vault.getFiles()`: the handles of the stored files, in listing order. -/
def getFilesOf (files : List (String × Content)) : List TFile :=
  files.map fun pc => ⟨pc.1⟩

/-- Model of `vault.getFiles().filter((file) => file_path.includes(file.path))[0]`
(utils.ts lines 62 and 87): the first listed handle whose path is a substring
of the target path, if any — the `[0]` access is modelled by `head?`. -/
def collisionMatch (files : List (String × Content)) (file_path : String) : Option TFile :=
  ((getFilesOf files).filter fun file => strIncludes file_path file.path).head?

/-- A JS variable of TS type `TFile[]`: it is either an array or `undefined`;
`save_result` initializes it to `[]` and only ever assigns arrays to it. -/
inductive JsArrayVar where
  | undef
  | arr (l : List TFile)
deriving DecidableEq, Repr

/-- JS truthiness of such a variable: every array (empty included) is truthy. -/
def jsTruthy : JsArrayVar → Bool
  | .undef => false
  | .arr _ => true

/-- Model of `tfiles.concat([...])`; only ever reached with an array. -/
def JsArrayVar.concatList : JsArrayVar → List TFile → JsArrayVar
  | .undef, _ => .undef
  | .arr l, l2 => .arr (l ++ l2)

/-- An error propagating out of `save_result`: a thrown JS `Error` with its
message, or the out-of-source behaviour of `vault.trash(undefined, true)` when
the collision filter matched nothing (claim of the index-0 access). -/
inductive SaveErr where
  | thrown (msg : String)
  | trashUndefined (path : String)
deriving DecidableEq, Repr

/-- The string JS produces for `"..." + e` in `process_result`'s catch.  For
the trash-of-undefined case the source fixes no message; an opaque diagnostic
stands in for it. -/
def SaveErr.display : SaveErr → String
  | .thrown m => "Error: " ++ m
  | .trashUndefined _ => "TypeError: cannot read properties of undefined"

/-- Outcome of a pipeline phase that yields a `TFile[]` variable. -/
structure SaveOut where
  trace : List Ev
  files : List (String × Content)
  ret : Except SaveErr JsArrayVar

/-- Outcome of `save_result` (a `Promise<boolean>`). -/
structure SaveResultOut where
  trace : List Ev
  files : List (String × Content)
  ret : Except SaveErr Bool

/-- The `cookie: "d=" + cookie` header set of the attachment GET. -/
def authHeaders (cookie : String) : List (String × String) :=
  [("cookie", "d=" ++ cookie)]

/-! ### The newer pipeline revision (utils.ts lines 26-141) -/

/-- The record text `result_data = JSON.stringify(result, replacer, 2)` (line 56). -/
def result_data_of (r : SlackResult) : String := jsonStringifyReplacer r.toJVal

/-- The target `file_path = path.join(attachment_path, result.file_name)` (line 54). -/
def primary_path (v : Vault) (r : SlackResult) : String :=
  pathJoin v.attachmentFolderPath r.file_name

/-- The primary-record write with its try/catch (utils.ts lines 57-69):
attempt `vault.create`; on an error whose message mentions the
exists-marker, look up a colliding handle in the listing, trash it, and retry
once (a failing retry is uncaught); any other error is re-thrown. -/
def save_primary (v : Vault) (file_path result_data : String) : SaveOut :=
  match storeCreate v.createFault v.files file_path (.text result_data) with
  | .ok files' =>
      ⟨[.createAttempt file_path (.text result_data) true], files',
        .ok (.arr [⟨file_path⟩])⟩
  | .error m =>
    if strIncludes m existsMarker then
      match collisionMatch v.files file_path with
      | none =>
          ⟨[.createAttempt file_path (.text result_data) false, .listFiles, .trashed none],
            v.files, .error (.trashUndefined file_path)⟩
      | some tf =>
        match storeCreate v.createFault (v.files.eraseP fun pc => pc.1 == tf.path)
            file_path (.text result_data) with
        | .ok files₂ =>
            ⟨[.createAttempt file_path (.text result_data) false, .listFiles,
               .trashed (some tf.path), .createAttempt file_path (.text result_data) true],
              files₂, .ok (.arr [⟨file_path⟩])⟩
        | .error m2 =>
            ⟨[.createAttempt file_path (.text result_data) false, .listFiles,
               .trashed (some tf.path), .createAttempt file_path (.text result_data) false],
              v.files.eraseP (fun pc => pc.1 == tf.path), .error (.thrown m2)⟩
    else
      ⟨[.createAttempt file_path (.text result_data) false], v.files, .error (.thrown m)⟩

/-- One iteration of the attachment loop (utils.ts lines 71-95): the
authenticated GET (outside any try, so a rejection propagates), then
`vault.createBinary` under the same collision-recovery policy; note that the
recovery branch overwrites `tfiles` with a singleton (line 89) where the happy
path concatenates (line 83). -/
def save_attachment_step (cookie attachment_path : String) (v : Vault)
    (kv : String × String) (files : List (String × Content)) (tfiles : JsArrayVar) :
    SaveOut :=
  match v.fetchResp kv.2 with
  | .error m => ⟨[.fetched kv.2 "GET" (authHeaders cookie)], files, .error (.thrown m)⟩
  | .ok bytes =>
    match storeCreate v.createFault files (pathJoin attachment_path kv.1) (.binary bytes) with
    | .ok files' =>
        ⟨[.fetched kv.2 "GET" (authHeaders cookie),
           .createAttempt (pathJoin attachment_path kv.1) (.binary bytes) true],
          files', .ok (tfiles.concatList [⟨pathJoin attachment_path kv.1⟩])⟩
    | .error m =>
      if strIncludes m existsMarker then
        match collisionMatch files (pathJoin attachment_path kv.1) with
        | none =>
            ⟨[.fetched kv.2 "GET" (authHeaders cookie),
               .createAttempt (pathJoin attachment_path kv.1) (.binary bytes) false,
               .listFiles, .trashed none],
              files, .error (.trashUndefined (pathJoin attachment_path kv.1))⟩
        | some tf =>
          match storeCreate v.createFault (files.eraseP fun pc => pc.1 == tf.path)
              (pathJoin attachment_path kv.1) (.binary bytes) with
          | .ok files₂ =>
              ⟨[.fetched kv.2 "GET" (authHeaders cookie),
                 .createAttempt (pathJoin attachment_path kv.1) (.binary bytes) false,
                 .listFiles, .trashed (some tf.path),
                 .createAttempt (pathJoin attachment_path kv.1) (.binary bytes) true],
                files₂, .ok (.arr [⟨pathJoin attachment_path kv.1⟩])⟩
          | .error m2 =>
              ⟨[.fetched kv.2 "GET" (authHeaders cookie),
                 .createAttempt (pathJoin attachment_path kv.1) (.binary bytes) false,
                 .listFiles, .trashed (some tf.path),
                 .createAttempt (pathJoin attachment_path kv.1) (.binary bytes) false],
                files.eraseP (fun pc => pc.1 == tf.path), .error (.thrown m2)⟩
      else
        ⟨[.fetched kv.2 "GET" (authHeaders cookie),
           .createAttempt (pathJoin attachment_path kv.1) (.binary bytes) false],
          files, .error (.thrown m)⟩

/-- The `for (const [key, val] of result.file_links)` loop: strictly
sequential, stopping at the first propagating error. -/
def save_attachments (cookie attachment_path : String) (v : Vault) :
    List (String × String) → List (String × Content) → JsArrayVar → SaveOut
  | [], files, tfiles => ⟨[], files, .ok tfiles⟩
  | kv :: rest, files, tfiles =>
    match save_attachment_step cookie attachment_path v kv files tfiles with
    | ⟨t, f, .error e⟩ => ⟨t, f, .error e⟩
    | ⟨t, f, .ok tfiles'⟩ =>
      match save_attachments cookie attachment_path v rest f tfiles' with
      | ⟨t2, f2, ret2⟩ => ⟨t ++ t2, f2, ret2⟩

/-- Model of `save_result(cookie, result, vault)` (utils.ts lines 50-99): resolve the
attachment root, write the primary record, then the attachments if
`result.file_links` is present, and return `tfiles ? true : false`. -/
def save_result (cookie : String) (r : SlackResult) (v : Vault) : SaveResultOut :=
  match save_primary v (primary_path v r) (result_data_of r) with
  | ⟨ptrace, pfiles, .error e⟩ =>
      ⟨.getConfig "attachmentFolderPath" :: ptrace, pfiles, .error e⟩
  | ⟨ptrace, pfiles, .ok tfiles⟩ =>
    match r.file_links with
    | none =>
        ⟨.getConfig "attachmentFolderPath" :: ptrace, pfiles, .ok (jsTruthy tfiles)⟩
    | some links =>
      match save_attachments cookie v.attachmentFolderPath v links pfiles tfiles with
      | ⟨atrace, afiles, .error e⟩ =>
          ⟨.getConfig "attachmentFolderPath" :: (ptrace ++ atrace), afiles, .error e⟩
      | ⟨atrace, afiles, .ok tfiles'⟩ =>
          ⟨.getConfig "attachmentFolderPath" :: (ptrace ++ atrace), afiles,
            .ok (jsTruthy tfiles')⟩

/-- The argument of `process_result`: a failure string or a structured result. -/
inductive ResultVal where
  | str (s : String)
  | structured (r : SlackResult)

/-- Observable outcome of one `process_result` invocation. -/
structure ProcOut where
  trace : List Ev
  files : List (String × Content)

/-- The success notification text (utils.ts lines 37-38). -/
def successMessage : String :=
  "Successfully downloaded slack message and saved to attachment folder. File name saved to clipboard"

/-- The catch-branch alert text (utils.ts line 44). -/
def problemMessage (e : SaveErr) : String :=
  "There was a problem saving message results: " ++ e.display

/-- Model of `process_result(cookie, result, vault)` (utils.ts lines 26-48): alert on a
string result; otherwise save, then clipboard + notice on `true`, the
unsuccessful alert on `false`, with every thrown failure caught and alerted. -/
def process_result (cookie : String) (result : ResultVal) (v : Vault) : ProcOut :=
  match result with
  | .str s => ⟨[.alertShown s], v.files⟩
  | .structured r =>
    match save_result cookie r v with
    | ⟨t, f, .error e⟩ => ⟨t ++ [.alertShown (problemMessage e)], f⟩
    | ⟨t, f, .ok true⟩ =>
        ⟨t ++ [.clipboardWrite r.file_name, .noticeShown successMessage], f⟩
    | ⟨t, f, .ok false⟩ => ⟨t ++ [.alertShown "File saving was unsuccessful"], f⟩

/-! ### The prior pipeline revision (second half of utils.ts): whitelist
filtering and inline `file_data` attachments, no collision recovery. -/

/-- The whitelist `keys_to_save` of the prior revision. -/
def keys_to_save : List String :=
  ["message_and_thread", "users", "channel", "teams", "file_name"]

/-- Model of `Object.keys(result).filter((key) => keys_to_save.includes(key)).reduce(...)`:
the subobject of the whitelisted keys, in original key order. -/
def filterResult (j : JVal) : JVal :=
  match j with
  | .obj fields => .obj (fields.filter fun kv => keys_to_save.contains kv.1)
  | v => v

/-- The primary-record text of the prior revision:
`JSON.stringify(result_filtered, undefined, 2)`. -/
def prior_primary_content (r : SlackResult) : String :=
  jsonStringifyPlain (filterResult r.toJVal)

/-- The prior revision's `for (let key in result.file_data)` loop: plain
`vault.create` per entry, no catch. -/
def prior_save_data (attachment_path : String) (fault : String → Option String) :
    List (String × String) → List (String × Content) →
      List Ev × List (String × Content) × Option SaveErr
  | [], files => ([], files, none)
  | kv :: rest, files =>
    match storeCreate fault files (pathJoin attachment_path kv.1) (.text kv.2) with
    | .error m =>
        ([.createAttempt (pathJoin attachment_path kv.1) (.text kv.2) false], files,
          some (.thrown m))
    | .ok files' =>
      match prior_save_data attachment_path fault rest files' with
      | (t, f, e) =>
          (.createAttempt (pathJoin attachment_path kv.1) (.text kv.2) true :: t, f, e)

/-- Model of `save_result(result, vault)` of the prior revision: filtered primary write
(uncaught on failure), then the inline attachments; returns
`tfile ? true : false` where `tfile` is a (truthy) `TFile` object. -/
def prior_save_result (r : SlackResult) (v : Vault) : SaveResultOut :=
  match storeCreate v.createFault v.files (primary_path v r)
      (.text (prior_primary_content r)) with
  | .error m =>
      ⟨[.getConfig "attachmentFolderPath",
         .createAttempt (primary_path v r) (.text (prior_primary_content r)) false],
        v.files, .error (.thrown m)⟩
  | .ok files' =>
    match r.file_data with
    | none =>
        ⟨[.getConfig "attachmentFolderPath",
           .createAttempt (primary_path v r) (.text (prior_primary_content r)) true],
          files', .ok true⟩
    | some datas =>
      match prior_save_data v.attachmentFolderPath v.createFault datas files' with
      | (t, f, none) =>
          ⟨.getConfig "attachmentFolderPath"
              :: .createAttempt (primary_path v r) (.text (prior_primary_content r)) true
              :: t, f, .ok true⟩
      | (t, f, some e) =>
          ⟨.getConfig "attachmentFolderPath"
              :: .createAttempt (primary_path v r) (.text (prior_primary_content r)) true
              :: t, f, .error e⟩

/-! ### Trace and store observations -/

/-- Events surfacing to the user (clipboard, notice, alert). -/
def userFacing : Ev → Bool
  | .clipboardWrite _ => true
  | .noticeShown _ => true
  | .alertShown _ => true
  | _ => false

/-- No user-facing event occurs in the trace. -/
def noUserFacing (t : List Ev) : Bool := t.all fun e => !userFacing e

/-- A file-store write that succeeded. -/
def isWriteOk : Ev → Bool
  | .createAttempt _ _ ok => ok
  | _ => false

/-- Any call to `create`/`createBinary`, successful or not. -/
def isCreateCall : Ev → Bool
  | .createAttempt _ _ _ => true
  | _ => false

/-- A `requestUrl` call. -/
def isFetchEv : Ev → Bool
  | .fetched _ _ _ => true
  | _ => false

/-- A `vault.trash` call. -/
def isTrashEv : Ev → Bool
  | .trashed _ => true
  | _ => false

/-- A clipboard write. -/
def isClipboardEv : Ev → Bool
  | .clipboardWrite _ => true
  | _ => false

/-- A success notice. -/
def isNoticeEv : Ev → Bool
  | .noticeShown _ => true
  | _ => false

/-- An alert. -/
def isAlertEv : Ev → Bool
  | .alertShown _ => true
  | _ => false

/-- Number of trace events satisfying `p`. -/
def countEv (p : Ev → Bool) (t : List Ev) : Nat := (t.filter p).length

/-- The content stored at path `p`, if any. -/
def lookupContent (files : List (String × Content)) (p : String) : Option Content :=
  (files.find? fun pc => pc.1 == p).map Prod.snd

/-- Top-level field names of a JS object value. -/
def jvalFieldNames : JVal → List String
  | .obj fields => fields.map Prod.fst
  | _ => []

/-- The value of a top-level field of a JS object value. -/
def jvalLookup (j : JVal) (k : String) : Option JVal :=
  match j with
  | .obj fields => (fields.find? fun kv => kv.1 == k).map Prod.snd
  | _ => none

/-- The bytes `fetchResp` answers with (meaningful when it succeeds). -/
def fetchOkBytes (v : Vault) (u : String) : ByteData :=
  match v.fetchResp u with
  | .ok bs => bs
  | .error _ => []

/-- The attachment-reference list is collision- and failure-free from a store
whose paths are `used`: every fetch succeeds, every target path is fresh
(neither in `used` nor produced by an earlier reference) and unfaulted. -/
def cleanLinks (v : Vault) : List (String × String) → List String → Bool
  | [], _ => true
  | kv :: rest, used =>
    !used.contains (pathJoin v.attachmentFolderPath kv.1)
      && (v.createFault (pathJoin v.attachmentFolderPath kv.1)).isNone
      && (match v.fetchResp kv.2 with | .ok _ => true | .error _ => false)
      && cleanLinks v rest (used ++ [pathJoin v.attachmentFolderPath kv.1])

/-! ### Concrete sample inputs (used by the witnesses) -/

/-- An empty, fault-free store whose fetches succeed. -/
def cleanVault : Vault := ⟨"att", [], fun _ => none, fun _ => .ok [7, 7]⟩

/-- A minimal structured result with no attachments. -/
def sampleResult : SlackResult :=
  { message_and_thread := .obj [], file_name := "msg1.json" }

/-- The same result with one remote attachment reference. -/
def sampleWithLinks : SlackResult :=
  { sampleResult with file_links := some [("img.png", "https://x/img")] }

/-! ### Basic trace lemmas -/

lemma strIncludes_existsMsg : strIncludes existsMsg existsMarker = true := by decide

lemma noUserFacing_append (a b : List Ev) :
    noUserFacing (a ++ b) = (noUserFacing a && noUserFacing b) := by
  simp [noUserFacing, List.all_append]

lemma countEv_append (p : Ev → Bool) (a b : List Ev) :
    countEv p (a ++ b) = countEv p a + countEv p b := by
  simp [countEv, List.filter_append]

lemma filter_append_ev (p : Ev → Bool) (a b : List Ev) :
    (a ++ b).filter p = a.filter p ++ b.filter p := List.filter_append a b

/-- Every trace of one attachment iteration is free of user-facing events. -/
lemma step_trace_clean (cookie root : String) (v : Vault) (kv : String × String)
    (files : List (String × Content)) (t : JsArrayVar) :
    noUserFacing (save_attachment_step cookie root v kv files t).trace = true := by
  unfold save_attachment_step
  repeat' split
  all_goals simp [noUserFacing, userFacing]

/-- A successful attachment iteration performs exactly one successful write,
issues exactly the one authenticated GET, and keeps the `tfiles` variable an
array. -/
lemma step_ok_spec (cookie root : String) (v : Vault) (kv : String × String)
    (files : List (String × Content)) (t : JsArrayVar) :
    ∀ tr fs t', save_attachment_step cookie root v kv files t = ⟨tr, fs, .ok t'⟩ →
      countEv isWriteOk tr = 1 ∧
      tr.filter isFetchEv = [.fetched kv.2 "GET" (authHeaders cookie)] ∧
      (∀ l, t = .arr l → ∃ l', t' = .arr l') := by
  unfold save_attachment_step
  repeat' split
  all_goals intro tr fs t' h
  all_goals injection h with h1 h2 h3
  all_goals first
    | exact Except.noConfusion h3
    | (subst h1; injection h3 with h3; subst h3;
       refine ⟨by simp [countEv, isWriteOk], by simp [isFetchEv], ?_⟩;
       intro l hl; subst hl; exact ⟨_, rfl⟩)

/-- The whole attachment loop emits no user-facing events. -/
lemma attachments_trace_clean (cookie root : String) (v : Vault)
    (links : List (String × String)) :
    ∀ (files : List (String × Content)) (t : JsArrayVar),
      noUserFacing (save_attachments cookie root v links files t).trace = true := by
  induction links with
  | nil => intro files t; simp [save_attachments, noUserFacing]
  | cons kv rest ih =>
    intro files t
    have hclean := step_trace_clean cookie root v kv files t
    unfold save_attachments
    rcases hstep : save_attachment_step cookie root v kv files t with ⟨tr, fs, ret⟩
    rw [hstep] at hclean
    cases ret with
    | error e => simpa using hclean
    | ok t' =>
      have hrest := ih fs t'
      rcases hrest' : save_attachments cookie root v rest fs t' with ⟨t2, f2, ret2⟩
      rw [hrest'] at hrest
      simp only [noUserFacing_append]
      simp_all

/-- A fully successful attachment loop performs exactly one successful write
per reference, issues exactly the authenticated GETs of the references in
order, and keeps `tfiles` an array. -/
lemma attachments_ok_spec (cookie root : String) (v : Vault)
    (links : List (String × String)) :
    ∀ (files : List (String × Content)) (t : JsArrayVar) tr fs t',
      save_attachments cookie root v links files t = ⟨tr, fs, .ok t'⟩ →
      countEv isWriteOk tr = links.length ∧
      tr.filter isFetchEv
        = links.map (fun kv => Ev.fetched kv.2 "GET" (authHeaders cookie)) ∧
      (∀ l, t = .arr l → ∃ l', t' = .arr l') := by
  induction links with
  | nil =>
    intro files t tr fs t' h
    rw [save_attachments] at h
    injection h with h1 h2 h3
    subst h1
    injection h3 with h3
    subst h3
    exact ⟨rfl, rfl, fun l hl => ⟨l, hl⟩⟩
  | cons kv rest ih =>
    intro files t tr fs t' h
    rw [save_attachments] at h
    rcases hstep : save_attachment_step cookie root v kv files t with ⟨tr1, fs1, ret1⟩
    rw [hstep] at h
    cases ret1 with
    | error e => exact absurd h (by intro hh; injection hh with _ _ h3; exact Except.noConfusion h3)
    | ok t1 =>
      simp only [] at h
      rcases hrest : save_attachments cookie root v rest fs1 t1 with ⟨t2, f2, ret2⟩
      rw [hrest] at h
      injection h with h1 h2 h3
      subst h1 h2
      cases ret2 with
      | error e => exact Except.noConfusion h3
      | ok t2v =>
        injection h3 with h3
        subst h3
        obtain ⟨hc1, hf1, harr1⟩ := step_ok_spec cookie root v kv files t tr1 fs1 t1 hstep
        obtain ⟨hc2, hf2, harr2⟩ := ih fs1 t1 t2 f2 t2v hrest
        refine ⟨?_, ?_, ?_⟩
        · rw [countEv_append, hc1, hc2]; simp [Nat.add_comm]
        · rw [filter_append_ev, hf1, hf2]; simp
        · intro l hl
          obtain ⟨l1, hl1⟩ := harr1 l hl
          exact harr2 l1 hl1

/-- The primary write emits no user-facing events. -/
lemma primary_trace_clean (v : Vault) (file_path result_data : String) :
    noUserFacing (save_primary v file_path result_data).trace = true := by
  unfold save_primary
  repeat' split
  all_goals simp [noUserFacing, userFacing]

/-- A successful primary write performs exactly one successful write, fetches
nothing, and yields an array-valued `tfiles`. -/
lemma primary_ok_spec (v : Vault) (file_path result_data : String) :
    ∀ tr fs t', save_primary v file_path result_data = ⟨tr, fs, .ok t'⟩ →
      countEv isWriteOk tr = 1 ∧ tr.filter isFetchEv = [] ∧ ∃ l, t' = .arr l := by
  unfold save_primary
  repeat' split
  all_goals intro tr fs t' h
  all_goals injection h with h1 h2 h3
  all_goals first
    | exact Except.noConfusion h3
    | (subst h1; injection h3 with h3; subst h3;
       exact ⟨by simp [countEv, isWriteOk], by simp [isFetchEv], _, rfl⟩)

/-- Lemma: `save_result` emits no user-facing events: alerts, notices and clipboard
writes happen only in `process_result`. -/
lemma save_result_trace_clean (cookie : String) (r : SlackResult) (v : Vault) :
    noUserFacing (save_result cookie r v).trace = true := by
  have hp := primary_trace_clean v (primary_path v r) (result_data_of r)
  unfold save_result
  rcases hprim : save_primary v (primary_path v r) (result_data_of r) with ⟨tr1, fs1, ret1⟩
  rw [hprim] at hp
  cases ret1 with
  | error e => simpa [noUserFacing, userFacing] using hp
  | ok t1 =>
    cases hl : r.file_links with
    | none => simpa [noUserFacing, userFacing] using hp
    | some links =>
      have ha := attachments_trace_clean cookie v.attachmentFolderPath v links fs1 t1
      rcases hatt : save_attachments cookie v.attachmentFolderPath v links fs1 t1
        with ⟨t2, f2, ret2⟩
      rw [hatt] at ha
      cases ret2 with
      | error e => simp_all [noUserFacing, userFacing, noUserFacing_append]
      | ok t2v => simp_all [noUserFacing, userFacing, noUserFacing_append]

/-- Whenever `save_result` resolves (does not reject), it resolves to `true`:
its accumulator is an array from initialization on, and arrays are truthy. -/
lemma save_result_ok_true (cookie : String) (r : SlackResult) (v : Vault) :
    ∀ tr fs b, save_result cookie r v = ⟨tr, fs, .ok b⟩ → b = true := by
  intro tr fs b h
  rw [save_result] at h
  rcases hprim : save_primary v (primary_path v r) (result_data_of r) with ⟨tr1, fs1, ret1⟩
  rw [hprim] at h
  cases ret1 with
  | error e => exact absurd h (by intro hh; injection hh with _ _ h3; exact Except.noConfusion h3)
  | ok t1 =>
    obtain ⟨-, -, l1, hl1⟩ := primary_ok_spec v (primary_path v r) (result_data_of r) tr1 fs1 t1 hprim
    cases hl : r.file_links with
    | none =>
      rw [hl] at h
      injection h with h1 h2 h3
      injection h3 with h3
      subst hl1
      simp [jsTruthy] at h3
      exact h3
    | some links =>
      rw [hl] at h
      simp only [] at h
      rcases hatt : save_attachments cookie v.attachmentFolderPath v links fs1 t1
        with ⟨t2, f2, ret2⟩
      rw [hatt] at h
      cases ret2 with
      | error e => exact absurd h (by intro hh; injection hh with _ _ h3; exact Except.noConfusion h3)
      | ok t2v =>
        obtain ⟨-, -, harr⟩ :=
          attachments_ok_spec cookie v.attachmentFolderPath v links fs1 t1 t2 f2 t2v hatt
        obtain ⟨l2, hl2⟩ := harr l1 hl1
        injection h with h1 h2 h3
        injection h3 with h3
        subst hl2
        simpa [jsTruthy] using h3.symm

lemma noUserFacing_spec {t : List Ev} (h : noUserFacing t = true) :
    ∀ e ∈ t, userFacing e = false := by
  intro e he
  have := List.all_eq_true.mp h e he
  simpa using this

lemma countEv_zero_of (p : Ev → Bool) (t : List Ev) (h : ∀ e ∈ t, p e = false) :
    countEv p t = 0 := by
  simp only [countEv, List.length_eq_zero, List.filter_eq_nil_iff]
  intro a ha
  simp [h a ha]

lemma alert_notUserFacing {e : Ev} (h : userFacing e = false) : isAlertEv e = false := by
  cases e <;> simp_all [userFacing, isAlertEv]

lemma clipboard_notUserFacing {e : Ev} (h : userFacing e = false) :
    isClipboardEv e = false := by
  cases e <;> simp_all [userFacing, isClipboardEv]

/-- The `file_name` a successful run copies to the clipboard. -/
def resFileName : ResultVal → String
  | .str _ => ""
  | .structured r => r.file_name

/-! ### The claims -/

/-- C5: for every string-typed result, `process_result` emits exactly one
alert carrying that string and performs zero file-store operations, zero
fetches, zero clipboard writes and zero success notifications — its whole
trace is that single alert, and the store is untouched. -/
theorem c5_string_alert_only (cookie s : String) (v : Vault) :
    (process_result cookie (.str s) v).trace = [Ev.alertShown s] ∧
    (process_result cookie (.str s) v).files = v.files :=
  ⟨rfl, rfl⟩

/-- C8: each `process_result` invocation ends in exactly one of the two
user-visible outcomes — a clipboard write of the result's `file_name`
immediately followed by the success notice, or a single alert — and no
user-facing event occurs anywhere earlier in the run. -/
theorem c8_single_outcome (cookie : String) (result : ResultVal) (v : Vault) :
    (∃ p, (process_result cookie result v).trace
        = p ++ [Ev.clipboardWrite (resFileName result), Ev.noticeShown successMessage]
        ∧ noUserFacing p = true) ∨
    (∃ p m, (process_result cookie result v).trace = p ++ [Ev.alertShown m]
        ∧ noUserFacing p = true) := by
  cases result with
  | str s => exact Or.inr ⟨[], s, rfl, rfl⟩
  | structured r =>
    have hcl := save_result_trace_clean cookie r v
    rcases h : save_result cookie r v with ⟨t, f, ret⟩
    rw [h] at hcl
    cases ret with
    | error e =>
      refine Or.inr ⟨t, problemMessage e, ?_, hcl⟩
      simp [process_result, h]
    | ok b =>
      have hb := save_result_ok_true cookie r v t f b h
      subst hb
      refine Or.inl ⟨t, ?_, hcl⟩
      simp [process_result, h, resFileName]

/-- C9: whenever `save_result` resolves without throwing it resolves to
`true` (its `tfiles` accumulator is initialized to an array, and every array
is truthy), so the "File saving was unsuccessful" alert branch of
`process_result` is unreachable through the real `save_result`. -/
theorem c9_save_result_always_true (cookie : String) (r : SlackResult) (v : Vault)
    (tr : List Ev) (fs : List (String × Content)) (b : Bool)
    (h : save_result cookie r v = ⟨tr, fs, .ok b⟩) :
    b = true ∧
    Ev.alertShown "File saving was unsuccessful"
      ∉ (process_result cookie (.structured r) v).trace := by
  have hb := save_result_ok_true cookie r v tr fs b h
  subst hb
  have hcl := save_result_trace_clean cookie r v
  rw [h] at hcl
  refine ⟨rfl, ?_⟩
  simp only [process_result, h, List.mem_append, List.mem_cons]
  rintro (hmem | hmem)
  · have := noUserFacing_spec hcl _ hmem
    simp [userFacing] at this
  · simp at hmem

/-- Witness for C9 at a concrete fault-free run. -/
theorem c9_witness :
    save_result "c" sampleResult cleanVault
      = ⟨(save_result "c" sampleResult cleanVault).trace,
         (save_result "c" sampleResult cleanVault).files, .ok true⟩ ∧
    (true = true ∧
      Ev.alertShown "File saving was unsuccessful"
        ∉ (process_result "c" (.structured sampleResult) cleanVault).trace) :=
  ⟨rfl, c9_save_result_always_true "c" sampleResult cleanVault _ _ true rfl⟩

/-- C7: any failure thrown by the collaborators inside `save_result` is caught
at the `process_result` boundary and converted into exactly one user-visible
alert appended to the trace — no exception escapes the call. -/
theorem c7_failures_to_single_alert (cookie : String) (r : SlackResult) (v : Vault)
    (tr : List Ev) (fs : List (String × Content)) (e : SaveErr)
    (h : save_result cookie r v = ⟨tr, fs, .error e⟩) :
    (process_result cookie (.structured r) v).trace
      = tr ++ [Ev.alertShown (problemMessage e)] ∧
    countEv isAlertEv (process_result cookie (.structured r) v).trace = 1 := by
  have hcl := save_result_trace_clean cookie r v
  rw [h] at hcl
  have htr : (process_result cookie (.structured r) v).trace
      = tr ++ [Ev.alertShown (problemMessage e)] := by simp [process_result, h]
  have hzero : countEv isAlertEv tr = 0 :=
    countEv_zero_of _ _ fun e' he' => alert_notUserFacing (noUserFacing_spec hcl e' he')
  refine ⟨htr, ?_⟩
  rw [htr, countEv_append, hzero]
  rfl

/-- A store whose create calls reject with a non-collision I/O error. -/
def faultVault : Vault := ⟨"att", [], fun _ => some "disk full", fun _ => .error "no net"⟩

/-- Witness for C7 at a concrete run whose primary write throws. -/
theorem c7_witness :
    save_result "c" sampleResult faultVault
      = ⟨(save_result "c" sampleResult faultVault).trace,
         (save_result "c" sampleResult faultVault).files, .error (.thrown "disk full")⟩ ∧
    ((process_result "c" (.structured sampleResult) faultVault).trace
        = (save_result "c" sampleResult faultVault).trace
          ++ [Ev.alertShown (problemMessage (.thrown "disk full"))] ∧
      countEv isAlertEv (process_result "c" (.structured sampleResult) faultVault).trace = 1) :=
  ⟨rfl, c7_failures_to_single_alert "c" sampleResult faultVault _ _ _ rfl⟩

/-! ### Serialization lemmas for C2 and C3 -/

lemma normalize_str (s : String) : normalize (.str s) = .str s := by
  rw [normalize]

lemma normalizeEntries_strmap (l : List (String × String)) :
    normalizeEntries (l.map fun kv => (kv.1, JVal.str kv.2))
      = l.map fun kv => JVal.arr [.str kv.1, .str kv.2] := by
  induction l with
  | nil => rfl
  | cons kv rest ih => rw [List.map_cons, normalizeEntries, normalize_str, List.map_cons, ih]

/-- In the replaced serialization tree of any result carrying an
attachment-reference map, the `file_links` field is the explicit tagged
object produced by the replacer. -/
lemma jvalLookup_normalize_file_links (r : SlackResult) (l : List (String × String))
    (hl : r.file_links = some l) :
    jvalLookup (normalize r.toJVal) "file_links"
      = some (.obj [("dataType", .str "Map"),
          ("value", .arr (l.map fun kv => JVal.arr [.str kv.1, .str kv.2]))]) := by
  have key : jvalLookup (normalize r.toJVal) "file_links"
      = some (.obj [("dataType", .str "Map"),
          ("value", .arr (normalizeEntries (l.map fun kv => (kv.1, JVal.str kv.2))))]) := by
    unfold SlackResult.toJVal
    rw [hl]
    cases r.users <;> cases r.channel <;> cases r.teams <;> cases r.file_data <;> rfl
  rw [key, normalizeEntries_strmap]

set_option maxRecDepth 8000 in
/-- C2 counterexample: at a concrete result with one attachment reference, the
replacer encodes the map field under the tags `dataType`/`value`, not under
the claimed `kind`/`entries` form, and the stored record text shows the same. -/
theorem c2_counterexample :
    jvalLookup (normalize sampleWithLinks.toJVal) "file_links"
        ≠ some (.obj [("kind", .str "map"),
            ("entries", .arr [.arr [.str "img.png", .str "https://x/img"]])]) ∧
    strIncludes (result_data_of sampleWithLinks) "\"kind\"" = false ∧
    strIncludes (result_data_of sampleWithLinks) "\"dataType\": \"Map\"" = true := by
  refine ⟨?_, rfl, rfl⟩
  intro hcontra
  have h1 : some (JVal.obj [("dataType", JVal.str "Map"),
      ("value", JVal.arr [JVal.arr [JVal.str "img.png", JVal.str "https://x/img"]])])
      = some (JVal.obj [("kind", JVal.str "map"),
          ("entries", JVal.arr [JVal.arr [JVal.str "img.png", JVal.str "https://x/img"]])]) :=
    hcontra
  simp at h1

/-- C2 (amended): the primary record text is the render of the replaced tree,
and in that tree every attachment-reference map field is encoded as the
explicit tagged form with `dataType: "Map"` and the entries as `[k, v]`
pairs, rather than losing its key/value structure. -/
theorem c2_map_encoding (r : SlackResult) (l : List (String × String))
    (hl : r.file_links = some l) :
    result_data_of r = render 0 (normalize r.toJVal) ∧
    jvalLookup (normalize r.toJVal) "file_links"
      = some (.obj [("dataType", .str "Map"),
          ("value", .arr (l.map fun kv => JVal.arr [.str kv.1, .str kv.2]))]) :=
  ⟨rfl, jvalLookup_normalize_file_links r l hl⟩

/-- Witness for C2 (amended) at the concrete one-attachment result. -/
theorem c2_witness :
    sampleWithLinks.file_links = some [("img.png", "https://x/img")] ∧
    (result_data_of sampleWithLinks = render 0 (normalize sampleWithLinks.toJVal) ∧
      jvalLookup (normalize sampleWithLinks.toJVal) "file_links"
        = some (.obj [("dataType", .str "Map"),
            ("value", .arr [.arr [.str "img.png", .str "https://x/img"]])])) :=
  ⟨rfl, c2_map_encoding sampleWithLinks [("img.png", "https://x/img")] rfl⟩

set_option maxRecDepth 8000 in
/-- C3 counterexample: in the newer revision the whole result is serialized,
so the stored primary record of a concrete run does contain the attachment
reference URL. -/
theorem c3_counterexample :
    lookupContent (save_result "c" sampleWithLinks cleanVault).files "att/msg1.json"
      = some (.text (result_data_of sampleWithLinks)) ∧
    strIncludes (result_data_of sampleWithLinks) "https://x/img" = true :=
  ⟨rfl, rfl⟩

/-- C3 (amended): in the prior (whitelist) revision, the serialized primary
record carries only whitelisted top-level fields — in particular neither the
`file_links` URL map nor the raw `file_data` attachment bytes. -/
theorem c3_whitelist (r : SlackResult) (k : String)
    (hk : k ∈ jvalFieldNames (filterResult r.toJVal)) :
    k ∈ keys_to_save ∧ k ≠ "file_links" ∧ k ≠ "file_data" ∧
    prior_primary_content r = jsonStringifyPlain (filterResult r.toJVal) := by
  have hmem : k ∈ keys_to_save := by
    rw [SlackResult.toJVal] at hk
    rw [filterResult] at hk
    rw [jvalFieldNames] at hk
    rw [List.mem_map] at hk
    obtain ⟨kv, hkv, hfst⟩ := hk
    rw [List.mem_filter] at hkv
    exact hfst ▸ List.mem_of_elem_eq_true hkv.2
  refine ⟨hmem, ?_, ?_, rfl⟩ <;>
    · simp only [keys_to_save, List.mem_cons, List.not_mem_nil, or_false] at hmem
      rcases hmem with rfl | rfl | rfl | rfl | rfl <;> decide

/-- The prior revision's sample input (inline attachment content). -/
def samplePrior : SlackResult :=
  { message_and_thread := .obj [], file_name := "msg1.json",
    file_data := some [("file1", "data")] }

/-- Witness for C3 (amended) at a concrete whitelisted key. -/
theorem c3_witness :
    "file_name" ∈ jvalFieldNames (filterResult samplePrior.toJVal) ∧
    ("file_name" ∈ keys_to_save ∧ "file_name" ≠ "file_links" ∧
      "file_name" ≠ "file_data" ∧
      prior_primary_content samplePrior
        = jsonStringifyPlain (filterResult samplePrior.toJVal)) :=
  ⟨by decide, c3_whitelist samplePrior "file_name" (by decide)⟩

/-! ### C6: call counts of a successful run -/

lemma countEv_cons_of_neg {p : Ev → Bool} {e : Ev} (t : List Ev) (h : p e = false) :
    countEv p (e :: t) = countEv p t := by
  simp [countEv, List.filter_cons, h]

lemma filter_cons_of_neg {p : Ev → Bool} {e : Ev} (t : List Ev) (h : p e = false) :
    (e :: t).filter p = t.filter p := by
  simp [List.filter_cons, h]

/-- C6: every successful structured run with `N` attachment references
performs exactly `N + 1` successful file-store writes (the primary record plus
one per reference, in order) and issues exactly the `N` authenticated GETs —
each a `GET` of the reference URL with header `cookie: "d=" + cookie` — and
then writes the clipboard exactly once, immediately after the last write and
before the success notice. -/
theorem c6_success_counts (cookie : String) (r : SlackResult) (v : Vault)
    (links : List (String × String)) (tr : List Ev) (fs : List (String × Content))
    (hlinks : r.file_links = some links)
    (h : save_result cookie r v = ⟨tr, fs, .ok true⟩) :
    countEv isWriteOk tr = links.length + 1 ∧
    tr.filter isFetchEv
      = links.map (fun kv => Ev.fetched kv.2 "GET" (authHeaders cookie)) ∧
    (process_result cookie (.structured r) v).trace
      = tr ++ [Ev.clipboardWrite r.file_name, Ev.noticeShown successMessage] ∧
    countEv isClipboardEv (process_result cookie (.structured r) v).trace = 1 := by
  have hcl := save_result_trace_clean cookie r v
  rw [h] at hcl
  have hproc : (process_result cookie (.structured r) v).trace
      = tr ++ [Ev.clipboardWrite r.file_name, Ev.noticeShown successMessage] := by
    simp [process_result, h]
  have hclip : countEv isClipboardEv tr = 0 :=
    countEv_zero_of _ _ fun e' he' => clipboard_notUserFacing (noUserFacing_spec hcl e' he')
  rw [save_result] at h
  rcases hprim : save_primary v (primary_path v r) (result_data_of r) with ⟨tr1, fs1, ret1⟩
  rw [hprim] at h
  cases ret1 with
  | error e => exact absurd h (by intro hh; injection hh with _ _ h3; exact Except.noConfusion h3)
  | ok t1 =>
    rw [hlinks] at h
    simp only [] at h
    rcases hatt : save_attachments cookie v.attachmentFolderPath v links fs1 t1
      with ⟨t2, f2, ret2⟩
    rw [hatt] at h
    cases ret2 with
    | error e => exact absurd h (by intro hh; injection hh with _ _ h3; exact Except.noConfusion h3)
    | ok t2v =>
      injection h with h1 h2 h3
      obtain ⟨hw1, hf1, -⟩ :=
        primary_ok_spec v (primary_path v r) (result_data_of r) tr1 fs1 t1 hprim
      obtain ⟨hw2, hf2, -⟩ :=
        attachments_ok_spec cookie v.attachmentFolderPath v links fs1 t1 t2 f2 t2v hatt
      subst h1
      refine ⟨?_, ?_, hproc, ?_⟩
      · rw [countEv_cons_of_neg _ rfl, countEv_append, hw1, hw2]
        omega
      · rw [filter_cons_of_neg _ rfl, filter_append_ev, hf1, hf2]
        rfl
      · rw [hproc, countEv_append, hclip]
        rfl

/-- Witness for C6 at the concrete one-attachment success run. -/
theorem c6_witness :
    sampleWithLinks.file_links = some [("img.png", "https://x/img")] ∧
    save_result "c" sampleWithLinks cleanVault
      = ⟨(save_result "c" sampleWithLinks cleanVault).trace,
         (save_result "c" sampleWithLinks cleanVault).files, .ok true⟩ ∧
    (countEv isWriteOk (save_result "c" sampleWithLinks cleanVault).trace = 1 + 1 ∧
      (save_result "c" sampleWithLinks cleanVault).trace.filter isFetchEv
        = [Ev.fetched "https://x/img" "GET" (authHeaders "c")] ∧
      (process_result "c" (.structured sampleWithLinks) cleanVault).trace
        = (save_result "c" sampleWithLinks cleanVault).trace
          ++ [Ev.clipboardWrite "msg1.json", Ev.noticeShown successMessage] ∧
      countEv isClipboardEv
        (process_result "c" (.structured sampleWithLinks) cleanVault).trace = 1) :=
  ⟨rfl, rfl,
    c6_success_counts "c" sampleWithLinks cleanVault [("img.png", "https://x/img")]
      (save_result "c" sampleWithLinks cleanVault).trace
      (save_result "c" sampleWithLinks cleanVault).files rfl rfl⟩

/-! ### Store lemmas for C1 and C10 -/

lemma any_beq_true (l : List (String × Content)) (p : String)
    (h : p ∈ l.map Prod.fst) : (l.any fun f => f.1 == p) = true := by
  rw [List.any_eq_true]
  obtain ⟨f, hf, hfst⟩ := List.mem_map.mp h
  exact ⟨f, hf, by simp [hfst]⟩

lemma any_beq_false (l : List (String × Content)) (p : String)
    (h : p ∉ l.map Prod.fst) : (l.any fun f => f.1 == p) = false := by
  rw [List.any_eq_false]
  intro f hf
  simp only [beq_iff_eq]
  intro hfst
  exact h (List.mem_map.mpr ⟨f, hf, hfst⟩)

lemma not_mem_map_fst_eraseP (l : List (String × Content)) (p : String)
    (h : (l.map Prod.fst).Nodup) (hm : p ∈ l.map Prod.fst) :
    p ∉ (l.eraseP fun pc => pc.1 == p).map Prod.fst := by
  induction l with
  | nil => simp at hm
  | cons kv rest ih =>
    rw [List.map_cons, List.nodup_cons] at h
    rw [List.eraseP_cons]
    by_cases hkv : kv.1 = p
    · subst hkv
      simp only [beq_self_eq_true, cond_true]
      exact h.1
    · have hbeq : (kv.1 == p) = false := by simp [hkv]
      rw [hbeq, cond_false, List.map_cons]
      intro hmem
      rcases List.mem_cons.mp hmem with heq | hmem2
      · exact hkv heq.symm
      · have hm2 : p ∈ rest.map Prod.fst := by
          rw [List.map_cons] at hm
          rcases List.mem_cons.mp hm with heq | h2
          · exact absurd heq.symm hkv
          · exact h2
        exact ih h.2 hm2 hmem2

lemma lookupContent_append_fresh (l : List (String × Content)) (p : String) (c : Content)
    (h : p ∉ l.map Prod.fst) :
    lookupContent (l ++ [(p, c)]) p = some c := by
  induction l with
  | nil => simp [lookupContent, List.find?]
  | cons kv rest ih =>
    rw [List.map_cons] at h
    have h1 : ¬p = kv.1 := fun hp => h (List.mem_cons.mpr (Or.inl hp))
    have h2 : p ∉ rest.map Prod.fst := fun hp => h (List.mem_cons.mpr (Or.inr hp))
    rw [List.cons_append]
    unfold lookupContent at ih ⊢
    rw [List.find?_cons_of_neg _ (by simp only [beq_iff_eq]; exact fun hq => h1 hq.symm)]
    exact ih h2

/-- A collision-free, unfaulted primary write appends the record. -/
lemma save_primary_fresh (v : Vault) (fp rd : String)
    (hfresh : fp ∉ v.files.map Prod.fst) (hfault : v.createFault fp = none) :
    save_primary v fp rd
      = ⟨[.createAttempt fp (.text rd) true], v.files ++ [(fp, .text rd)],
         .ok (.arr [⟨fp⟩])⟩ := by
  have hc : storeCreate v.createFault v.files fp (.text rd)
      = .ok (v.files ++ [(fp, .text rd)]) := by
    simp [storeCreate, any_beq_false _ _ hfresh, hfault]
  unfold save_primary
  rw [hc]

/-- A genuinely colliding primary write whose filter finds the collider first
trashes it and succeeds on the single retry. -/
lemma save_primary_collision (v : Vault) (fp rd : String)
    (hmem : fp ∈ v.files.map Prod.fst)
    (hfirst : collisionMatch v.files fp = some ⟨fp⟩)
    (hfresh2 : fp ∉ (v.files.eraseP fun pc => pc.1 == fp).map Prod.fst)
    (hfault : v.createFault fp = none) :
    save_primary v fp rd
      = ⟨[.createAttempt fp (.text rd) false, .listFiles, .trashed (some fp),
          .createAttempt fp (.text rd) true],
         (v.files.eraseP fun pc => pc.1 == fp) ++ [(fp, .text rd)],
         .ok (.arr [⟨fp⟩])⟩ := by
  have hc1 : storeCreate v.createFault v.files fp (.text rd) = .error existsMsg := by
    simp [storeCreate, any_beq_true _ _ hmem]
  have hc2 : storeCreate v.createFault (v.files.eraseP fun pc => pc.1 == fp) fp (.text rd)
      = .ok ((v.files.eraseP fun pc => pc.1 == fp) ++ [(fp, .text rd)]) := by
    simp [storeCreate, any_beq_false _ _ hfresh2, hfault]
  unfold save_primary
  rw [hc1]
  simp [strIncludes_existsMsg, hfirst, hc2]

/-- C1: when the primary `createText` fails because the target path already
exists (and the collision filter locates that very file first), the pipeline
trashes exactly one handle, retries the create exactly once (two create calls
in all), and the finally stored bytes equal the serialized record — the same
bytes a run against the store without the pre-existing file stores, which
itself trashes nothing.  Hence the stored content is independent of whether
the path pre-existed. -/
theorem c1_collision_idempotent (cookie : String) (r : SlackResult) (v : Vault)
    (_hname : r.file_name ≠ "")
    (hlinks : r.file_links = none)
    (hmem : primary_path v r ∈ v.files.map Prod.fst)
    (hnodup : (v.files.map Prod.fst).Nodup)
    (hfirst : collisionMatch v.files (primary_path v r) = some ⟨primary_path v r⟩)
    (hfault : v.createFault (primary_path v r) = none) :
    countEv isTrashEv (save_result cookie r v).trace = 1 ∧
    countEv isCreateCall (save_result cookie r v).trace = 2 ∧
    lookupContent (save_result cookie r v).files (primary_path v r)
      = some (.text (result_data_of r)) ∧
    lookupContent
        (save_result cookie r
          { v with files := v.files.eraseP (fun pc => pc.1 == primary_path v r) }).files
        (primary_path v r)
      = some (.text (result_data_of r)) ∧
    countEv isTrashEv
        (save_result cookie r
          { v with files := v.files.eraseP (fun pc => pc.1 == primary_path v r) }).trace
      = 0 := by
  have hnotmem : primary_path v r ∉
      (v.files.eraseP fun pc => pc.1 == primary_path v r).map Prod.fst :=
    not_mem_map_fst_eraseP v.files (primary_path v r) hnodup hmem
  have hprim := save_primary_collision v (primary_path v r) (result_data_of r)
    hmem hfirst hnotmem hfault
  have hsave : save_result cookie r v
      = ⟨[.getConfig "attachmentFolderPath",
          .createAttempt (primary_path v r) (.text (result_data_of r)) false,
          .listFiles, .trashed (some (primary_path v r)),
          .createAttempt (primary_path v r) (.text (result_data_of r)) true],
         (v.files.eraseP fun pc => pc.1 == primary_path v r)
           ++ [(primary_path v r, .text (result_data_of r))],
         .ok true⟩ := by
    unfold save_result
    rw [hprim]
    simp only []
    rw [hlinks]
    rfl
  have hpp : primary_path
      { v with files := v.files.eraseP (fun pc => pc.1 == primary_path v r) } r
      = primary_path v r := rfl
  have hprimf := save_primary_fresh
    { v with files := v.files.eraseP (fun pc => pc.1 == primary_path v r) }
    (primary_path v r) (result_data_of r) hnotmem hfault
  have hsavef : save_result cookie r
        { v with files := v.files.eraseP (fun pc => pc.1 == primary_path v r) }
      = ⟨[.getConfig "attachmentFolderPath",
          .createAttempt (primary_path v r) (.text (result_data_of r)) true],
         (v.files.eraseP fun pc => pc.1 == primary_path v r)
           ++ [(primary_path v r, .text (result_data_of r))],
         .ok true⟩ := by
    unfold save_result
    rw [hpp, hprimf]
    simp only []
    rw [hlinks]
    rfl
  rw [hsave, hsavef]
  exact ⟨rfl, rfl,
    lookupContent_append_fresh _ _ _ hnotmem,
    lookupContent_append_fresh _ _ _ hnotmem, rfl⟩

/-- A store already holding the primary record's path. -/
def collVault : Vault :=
  ⟨"att", [("att/msg1.json", .text "old")], fun _ => none, fun _ => .error "no net"⟩

/-- The colliding store with the pre-existing primary file removed. -/
def collVaultErased : Vault :=
  { collVault with
    files := collVault.files.eraseP fun pc =>
      pc.1 == primary_path collVault sampleResult }

/-- Witness for C1 at a concrete colliding run. -/
theorem c1_witness :
    sampleResult.file_name ≠ "" ∧
    sampleResult.file_links = none ∧
    primary_path collVault sampleResult ∈ collVault.files.map Prod.fst ∧
    (collVault.files.map Prod.fst).Nodup ∧
    collisionMatch collVault.files (primary_path collVault sampleResult)
      = some ⟨primary_path collVault sampleResult⟩ ∧
    collVault.createFault (primary_path collVault sampleResult) = none ∧
    (countEv isTrashEv (save_result "c" sampleResult collVault).trace = 1 ∧
      countEv isCreateCall (save_result "c" sampleResult collVault).trace = 2 ∧
      lookupContent (save_result "c" sampleResult collVault).files
          (primary_path collVault sampleResult)
        = some (.text (result_data_of sampleResult)) ∧
      lookupContent (save_result "c" sampleResult collVaultErased).files
          (primary_path collVault sampleResult)
        = some (.text (result_data_of sampleResult)) ∧
      countEv isTrashEv (save_result "c" sampleResult collVaultErased).trace = 0) :=
  ⟨by decide, rfl, by decide, by decide, rfl, rfl,
    c1_collision_idempotent "c" sampleResult collVault (by decide) rfl (by decide)
      (by decide) rfl rfl⟩

/-! ### C10: the unchecked index-0 access in collision recovery -/

lemma collisionMatch_none (fp : String) :
    ∀ files : List (String × Content),
      (∀ q ∈ files.map Prod.fst, strIncludes fp q = false) →
      collisionMatch files fp = none := by
  intro files
  induction files with
  | nil => intro _; rfl
  | cons kv rest ih =>
    intro h
    have hhd : strIncludes fp kv.1 = false := h kv.1 (by simp)
    have htl := ih fun q hq => h q (by simp [hq])
    unfold collisionMatch getFilesOf at htl ⊢
    simpa [List.filter_cons, hhd] using htl

/-- C10: if the primary create rejects with a message carrying the
"File already exists" marker while no listed file's path is a substring of the
target path, the collision filter is empty, so the `[0]` access yields no
handle and `trash` is applied to a missing element: the recovery leaves its
defined behaviour (modelled as the `trashUndefined` outcome) after exactly one
create call — the trash-and-retry recovery is well-defined only under the
precondition that the listing contains a matching handle. -/
theorem c10_collision_lookup_unsafe (cookie : String) (r : SlackResult) (v : Vault)
    (m : String)
    (hfault : v.createFault (primary_path v r) = some m)
    (hmark : strIncludes m existsMarker = true)
    (hfresh : primary_path v r ∉ v.files.map Prod.fst)
    (hnomatch : ∀ q ∈ v.files.map Prod.fst, strIncludes (primary_path v r) q = false) :
    (save_result cookie r v).ret = .error (.trashUndefined (primary_path v r)) ∧
    countEv isCreateCall (save_result cookie r v).trace = 1 ∧
    (save_result cookie r v).trace
      = [Ev.getConfig "attachmentFolderPath",
         Ev.createAttempt (primary_path v r) (.text (result_data_of r)) false,
         Ev.listFiles, Ev.trashed none] := by
  have hc1 : storeCreate v.createFault v.files (primary_path v r)
      (.text (result_data_of r)) = .error m := by
    simp [storeCreate, any_beq_false _ _ hfresh, hfault]
  have hnone := collisionMatch_none (primary_path v r) v.files hnomatch
  have hprim : save_primary v (primary_path v r) (result_data_of r)
      = ⟨[.createAttempt (primary_path v r) (.text (result_data_of r)) false,
          .listFiles, .trashed none],
         v.files, .error (.trashUndefined (primary_path v r))⟩ := by
    unfold save_primary
    rw [hc1]
    simp [hmark, hnone]
  have hsave : save_result cookie r v
      = ⟨[.getConfig "attachmentFolderPath",
          .createAttempt (primary_path v r) (.text (result_data_of r)) false,
          .listFiles, .trashed none],
         v.files, .error (.trashUndefined (primary_path v r))⟩ := by
    unfold save_result
    rw [hprim]
  rw [hsave]
  exact ⟨rfl, rfl, rfl⟩

/-- A store that spuriously reports a collision while holding no matching
file. -/
def ghostVault : Vault :=
  ⟨"att", [("zzz.md", .text "q")], fun _ => some "File already exists.",
    fun _ => .error "no net"⟩

/-- Witness for C10 at a concrete no-match collision. -/
theorem c10_witness :
    ghostVault.createFault (primary_path ghostVault sampleResult)
      = some "File already exists." ∧
    strIncludes "File already exists." existsMarker = true ∧
    primary_path ghostVault sampleResult ∉ ghostVault.files.map Prod.fst ∧
    (∀ q ∈ ghostVault.files.map Prod.fst,
      strIncludes (primary_path ghostVault sampleResult) q = false) ∧
    ((save_result "c" sampleResult ghostVault).ret
        = .error (.trashUndefined (primary_path ghostVault sampleResult)) ∧
      countEv isCreateCall (save_result "c" sampleResult ghostVault).trace = 1 ∧
      (save_result "c" sampleResult ghostVault).trace
        = [Ev.getConfig "attachmentFolderPath",
           Ev.createAttempt (primary_path ghostVault sampleResult)
             (.text (result_data_of sampleResult)) false,
           Ev.listFiles, Ev.trashed none]) :=
  ⟨rfl, by decide, by decide, by decide,
    c10_collision_lookup_unsafe "c" sampleResult ghostVault "File already exists."
      rfl (by decide) (by decide) (by decide)⟩

/-! ### C4: a failing attachment aborts the rest but keeps the primary -/

lemma countEv_cons_of_pos {p : Ev → Bool} {e : Ev} (t : List Ev) (h : p e = true) :
    countEv p (e :: t) = countEv p t + 1 := by
  simp [countEv, List.filter_cons, h]

lemma notice_notUserFacing {e : Ev} (h : userFacing e = false) : isNoticeEv e = false := by
  cases e <;> simp_all [userFacing, isNoticeEv]

lemma not_mem_of_contains_false {l : List String} {a : String}
    (h : l.contains a = false) : a ∉ l := by
  intro hm
  have h2 : l.elem a = true := List.elem_eq_true_of_mem hm
  have h3 : l.elem a = false := h
  rw [h2] at h3
  exact Bool.noConfusion h3

lemma lookupContent_append_mid (l1 l2 : List (String × Content)) (p : String) (c : Content)
    (h : p ∉ l1.map Prod.fst) :
    lookupContent (l1 ++ (p, c) :: l2) p = some c := by
  induction l1 with
  | nil =>
    rw [List.nil_append]
    unfold lookupContent
    rw [List.find?_cons_of_pos _ (by simp)]
    rfl
  | cons kv rest ih =>
    rw [List.map_cons] at h
    have h1 : ¬p = kv.1 := fun hp => h (List.mem_cons.mpr (Or.inl hp))
    have h2 : p ∉ rest.map Prod.fst := fun hp => h (List.mem_cons.mpr (Or.inr hp))
    rw [List.cons_append]
    unfold lookupContent at ih ⊢
    rw [List.find?_cons_of_neg _ (by simp only [beq_iff_eq]; exact fun hq => h1 hq.symm)]
    exact ih h2

lemma fetch_ok_of_flag {v : Vault} {u : String}
    (h : (match v.fetchResp u with | .ok _ => true | .error _ => false) = true) :
    ∃ bs, v.fetchResp u = .ok bs := by
  revert h
  rcases v.fetchResp u with m | bs
  · intro h; simp at h
  · intro _; exact ⟨bs, rfl⟩

/-- Unpack one clean reference from a `cleanLinks` certificate. -/
lemma cleanLinks_cons (v : Vault) (kv : String × String) (rest : List (String × String))
    (used : List String) (h : cleanLinks v (kv :: rest) used = true) :
    pathJoin v.attachmentFolderPath kv.1 ∉ used ∧
    v.createFault (pathJoin v.attachmentFolderPath kv.1) = none ∧
    (∃ bs, v.fetchResp kv.2 = .ok bs) ∧
    cleanLinks v rest (used ++ [pathJoin v.attachmentFolderPath kv.1]) = true := by
  rw [cleanLinks] at h
  simp only [Bool.and_eq_true, Bool.not_eq_true'] at h
  obtain ⟨⟨⟨hnc, hfon⟩, hfok⟩, hrest⟩ := h
  exact ⟨not_mem_of_contains_false hnc, Option.isNone_iff_eq_none.mp hfon,
    fetch_ok_of_flag hfok, hrest⟩

/-- One attachment iteration on a clean reference: authenticated GET, then a
first-try successful binary write. -/
lemma step_clean_run (cookie : String) (v : Vault) (kv : String × String)
    (files : List (String × Content)) (l : List TFile)
    (hfresh : pathJoin v.attachmentFolderPath kv.1 ∉ files.map Prod.fst)
    (hfault : v.createFault (pathJoin v.attachmentFolderPath kv.1) = none)
    (hfok : ∃ bs, v.fetchResp kv.2 = .ok bs) :
    save_attachment_step cookie v.attachmentFolderPath v kv files (.arr l)
      = ⟨[.fetched kv.2 "GET" (authHeaders cookie),
          .createAttempt (pathJoin v.attachmentFolderPath kv.1)
            (.binary (fetchOkBytes v kv.2)) true],
         files ++ [(pathJoin v.attachmentFolderPath kv.1, .binary (fetchOkBytes v kv.2))],
         .ok (.arr (l ++ [⟨pathJoin v.attachmentFolderPath kv.1⟩]))⟩ := by
  obtain ⟨bs, hbs⟩ := hfok
  have hbytes : fetchOkBytes v kv.2 = bs := by simp [fetchOkBytes, hbs]
  have hcreate : storeCreate v.createFault files (pathJoin v.attachmentFolderPath kv.1)
      (.binary bs) = .ok (files ++ [(pathJoin v.attachmentFolderPath kv.1, .binary bs)]) := by
    simp [storeCreate, any_beq_false _ _ hfresh, hfault]
  unfold save_attachment_step
  rw [hbs]
  simp only []
  rw [hcreate, hbytes]
  rfl

/-- The failing attachment reference of C4: its fetch rejects, or its write
rejects with a non-collision fault at a fresh path (`used` holding every path
present when the iteration starts). -/
def FailStep (v : Vault) (used : List String) (k u : String) : Prop :=
  (∃ m, v.fetchResp u = .error m) ∨
  ((∃ bs, v.fetchResp u = .ok bs) ∧
    pathJoin v.attachmentFolderPath k ∉ used ∧
    ∃ fm, v.createFault (pathJoin v.attachmentFolderPath k) = some fm ∧
      strIncludes fm existsMarker = false)

/-- A failing iteration stops with a propagating error, leaves the store
untouched, performs one fetch at most once and no successful write. -/
lemma step_fail_run (cookie : String) (v : Vault) (k u : String)
    (files : List (String × Content)) (t : JsArrayVar)
    (hf : FailStep v (files.map Prod.fst) k u) :
    ∃ e t1, save_attachment_step cookie v.attachmentFolderPath v (k, u) files t
        = ⟨t1, files, .error e⟩ ∧
      countEv isFetchEv t1 = 1 ∧ countEv isWriteOk t1 = 0 ∧ noUserFacing t1 = true := by
  rcases hf with ⟨m, hm⟩ | ⟨⟨bs, hbs⟩, hfresh, fm, hfm, hmark⟩
  · refine ⟨.thrown m, [.fetched u "GET" (authHeaders cookie)], ?_, rfl, rfl, rfl⟩
    unfold save_attachment_step
    rw [hm]
  · refine ⟨.thrown fm,
      [.fetched u "GET" (authHeaders cookie),
       .createAttempt (pathJoin v.attachmentFolderPath k) (.binary bs) false],
      ?_, rfl, rfl, rfl⟩
    have hc : storeCreate v.createFault files (pathJoin v.attachmentFolderPath k)
        (.binary bs) = .error fm := by
      simp [storeCreate, any_beq_false _ _ hfresh, hfm]
    unfold save_attachment_step
    rw [hbs]
    simp only []
    rw [hc]
    simp [hmark]

/-- The trace of a clean run over the given references. -/
def cleanAttTrace (cookie : String) (v : Vault) : List (String × String) → List Ev
  | [] => []
  | kv :: rest =>
      .fetched kv.2 "GET" (authHeaders cookie)
        :: .createAttempt (pathJoin v.attachmentFolderPath kv.1)
             (.binary (fetchOkBytes v kv.2)) true
        :: cleanAttTrace cookie v rest

/-- The files a clean run over the given references appends. -/
def cleanAttWrites (v : Vault) (links : List (String × String)) : List (String × Content) :=
  links.map fun kv => (pathJoin v.attachmentFolderPath kv.1, .binary (fetchOkBytes v kv.2))

lemma cleanAttTrace_fetch_count (cookie : String) (v : Vault)
    (links : List (String × String)) :
    countEv isFetchEv (cleanAttTrace cookie v links) = links.length := by
  induction links with
  | nil => rfl
  | cons kv rest ih =>
    rw [cleanAttTrace, countEv_cons_of_pos _ rfl, countEv_cons_of_neg _ rfl, ih,
      List.length_cons]

lemma cleanAttTrace_write_count (cookie : String) (v : Vault)
    (links : List (String × String)) :
    countEv isWriteOk (cleanAttTrace cookie v links) = links.length := by
  induction links with
  | nil => rfl
  | cons kv rest ih =>
    rw [cleanAttTrace, countEv_cons_of_neg _ rfl, countEv_cons_of_pos _ rfl, ih,
      List.length_cons]

/-- A clean prefix followed by a failing reference: the loop runs the prefix,
fails on the reference, and never touches the remaining references. -/
lemma attachments_fail_run (cookie : String) (v : Vault) (k u : String)
    (post : List (String × String)) (pre : List (String × String)) :
    ∀ (files : List (String × Content)) (l : List TFile),
      cleanLinks v pre (files.map Prod.fst) = true →
      FailStep v (files.map Prod.fst
        ++ pre.map fun kv => pathJoin v.attachmentFolderPath kv.1) k u →
      ∃ e t1,
        save_attachments cookie v.attachmentFolderPath v (pre ++ (k, u) :: post)
            files (.arr l)
          = ⟨cleanAttTrace cookie v pre ++ t1, files ++ cleanAttWrites v pre, .error e⟩ ∧
        countEv isFetchEv t1 = 1 ∧ countEv isWriteOk t1 = 0 := by
  induction pre with
  | nil =>
    intro files l hclean hfail
    simp only [List.map_nil, List.append_nil] at hfail
    obtain ⟨e, t1, hstep, h1, h2, h3⟩ := step_fail_run cookie v k u files (.arr l) hfail
    refine ⟨e, t1, ?_, h1, h2⟩
    rw [List.nil_append, save_attachments, hstep]
    simp [cleanAttTrace, cleanAttWrites]
  | cons kv rest ih =>
    intro files l hclean hfail
    obtain ⟨hfresh, hfault, hfok, hrest⟩ := cleanLinks_cons v kv rest _ hclean
    have hstep := step_clean_run cookie v kv files l hfresh hfault hfok
    have hused : (files ++ [(pathJoin v.attachmentFolderPath kv.1,
        Content.binary (fetchOkBytes v kv.2))]).map Prod.fst
        = files.map Prod.fst ++ [pathJoin v.attachmentFolderPath kv.1] := by
      simp
    have hfail' : FailStep v
        ((files ++ [(pathJoin v.attachmentFolderPath kv.1,
            Content.binary (fetchOkBytes v kv.2))]).map Prod.fst
          ++ rest.map fun kv => pathJoin v.attachmentFolderPath kv.1) k u := by
      rw [hused, List.append_assoc, List.singleton_append]
      exact hfail
    obtain ⟨e, t1, hrec, h1, h2⟩ := ih
      (files ++ [(pathJoin v.attachmentFolderPath kv.1,
        Content.binary (fetchOkBytes v kv.2))])
      (l ++ [⟨pathJoin v.attachmentFolderPath kv.1⟩])
      (by rw [hused]; exact hrest) hfail'
    refine ⟨e, t1, ?_, h1, h2⟩
    rw [List.cons_append, save_attachments, hstep]
    simp only []
    rw [hrec]
    simp [cleanAttTrace, cleanAttWrites, List.append_assoc]

/-- C4: in a structured run whose primary write succeeds, when the fetch or
the (non-collision) write of one attachment fails after a clean prefix of
attachments, the error propagates: every later attachment is skipped (its
fetch and write never happen), the already-written primary record stays on
disk unmodified, no clipboard write and no success notice occur, and the run
is reported through exactly one alert. -/
theorem c4_attachment_failure_aborts (cookie : String) (r : SlackResult) (v : Vault)
    (pre post : List (String × String)) (k u : String)
    (hlinks : r.file_links = some (pre ++ (k, u) :: post))
    (hpfresh : primary_path v r ∉ v.files.map Prod.fst)
    (hpfault : v.createFault (primary_path v r) = none)
    (hpre : cleanLinks v pre (v.files.map Prod.fst ++ [primary_path v r]) = true)
    (hfail : FailStep v
      ((v.files.map Prod.fst ++ [primary_path v r])
        ++ pre.map fun kv => pathJoin v.attachmentFolderPath kv.1) k u) :
    ∃ e : SaveErr,
      (save_result cookie r v).ret = .error e ∧
      (process_result cookie (.structured r) v).trace
        = (save_result cookie r v).trace ++ [Ev.alertShown (problemMessage e)] ∧
      countEv isClipboardEv (process_result cookie (.structured r) v).trace = 0 ∧
      countEv isNoticeEv (process_result cookie (.structured r) v).trace = 0 ∧
      countEv isAlertEv (process_result cookie (.structured r) v).trace = 1 ∧
      lookupContent (save_result cookie r v).files (primary_path v r)
        = some (.text (result_data_of r)) ∧
      countEv isFetchEv (save_result cookie r v).trace = pre.length + 1 ∧
      countEv isWriteOk (save_result cookie r v).trace = pre.length + 1 := by
  have hprim := save_primary_fresh v (primary_path v r) (result_data_of r) hpfresh hpfault
  have hclean' : cleanLinks v pre
      ((v.files ++ [(primary_path v r, Content.text (result_data_of r))]).map Prod.fst)
      = true := by
    simpa using hpre
  have hfail' : FailStep v
      ((v.files ++ [(primary_path v r, Content.text (result_data_of r))]).map Prod.fst
        ++ pre.map fun kv => pathJoin v.attachmentFolderPath kv.1) k u := by
    simpa using hfail
  obtain ⟨e, t1, hloop, hf1, hw1⟩ := attachments_fail_run cookie v k u post pre
    (v.files ++ [(primary_path v r, Content.text (result_data_of r))]) [⟨primary_path v r⟩]
    hclean' hfail'
  have hsave : save_result cookie r v
      = ⟨.getConfig "attachmentFolderPath"
          :: ([.createAttempt (primary_path v r) (.text (result_data_of r)) true]
            ++ (cleanAttTrace cookie v pre ++ t1)),
         (v.files ++ [(primary_path v r, Content.text (result_data_of r))])
           ++ cleanAttWrites v pre,
         .error e⟩ := by
    unfold save_result
    rw [hprim]
    simp only []
    rw [hlinks]
    simp only []
    rw [hloop]
  refine ⟨e, by rw [hsave], ?_, ?_, ?_, ?_, ?_, ?_, ?_⟩
  · simp [process_result, hsave]
  · have hcl := save_result_trace_clean cookie r v
    have hzero : countEv isClipboardEv (save_result cookie r v).trace = 0 :=
      countEv_zero_of _ _ fun e' he' =>
        clipboard_notUserFacing (noUserFacing_spec hcl e' he')
    have htr : (process_result cookie (.structured r) v).trace
        = (save_result cookie r v).trace ++ [Ev.alertShown (problemMessage e)] := by
      simp [process_result, hsave]
    rw [htr, countEv_append, hzero]
    rfl
  · have hcl := save_result_trace_clean cookie r v
    have hzero : countEv isNoticeEv (save_result cookie r v).trace = 0 :=
      countEv_zero_of _ _ fun e' he' =>
        notice_notUserFacing (noUserFacing_spec hcl e' he')
    have htr : (process_result cookie (.structured r) v).trace
        = (save_result cookie r v).trace ++ [Ev.alertShown (problemMessage e)] := by
      simp [process_result, hsave]
    rw [htr, countEv_append, hzero]
    rfl
  · have hcl := save_result_trace_clean cookie r v
    have hzero : countEv isAlertEv (save_result cookie r v).trace = 0 :=
      countEv_zero_of _ _ fun e' he' =>
        alert_notUserFacing (noUserFacing_spec hcl e' he')
    have htr : (process_result cookie (.structured r) v).trace
        = (save_result cookie r v).trace ++ [Ev.alertShown (problemMessage e)] := by
      simp [process_result, hsave]
    rw [htr, countEv_append, hzero]
    rfl
  · rw [hsave]
    show lookupContent ((v.files
        ++ [(primary_path v r, Content.text (result_data_of r))]) ++ cleanAttWrites v pre)
        (primary_path v r) = some (.text (result_data_of r))
    rw [List.append_assoc, List.singleton_append]
    exact lookupContent_append_mid v.files (cleanAttWrites v pre) _ _ hpfresh
  · rw [hsave]
    show countEv isFetchEv (.getConfig "attachmentFolderPath"
        :: ([.createAttempt (primary_path v r) (.text (result_data_of r)) true]
          ++ (cleanAttTrace cookie v pre ++ t1))) = pre.length + 1
    rw [countEv_cons_of_neg _ rfl, countEv_append, countEv_cons_of_neg _ rfl,
      countEv_append, cleanAttTrace_fetch_count, hf1]
    simp [countEv]
  · rw [hsave]
    show countEv isWriteOk (.getConfig "attachmentFolderPath"
        :: ([.createAttempt (primary_path v r) (.text (result_data_of r)) true]
          ++ (cleanAttTrace cookie v pre ++ t1))) = pre.length + 1
    rw [countEv_cons_of_neg _ rfl, countEv_append, countEv_cons_of_pos _ rfl,
      countEv_append, cleanAttTrace_write_count, hw1]
    simp [countEv]
    try omega

/-- A store whose fetch succeeds only for the first attachment's URL. -/
def c4Vault : Vault :=
  ⟨"att", [], fun _ => none,
    fun u => if u = "u1" then .ok [1, 2] else .error "HTTP 500"⟩

/-- A result with three attachment references, the second of which fails. -/
def c4Result : SlackResult :=
  { message_and_thread := .obj [], file_name := "msg1.json",
    file_links := some [("a.png", "u1"), ("b.png", "u2"), ("c.png", "u3")] }

/-- Witness for C4 at a concrete run failing on the second of three
attachments. -/
theorem c4_witness :
    c4Result.file_links
      = some ([("a.png", "u1")] ++ ("b.png", "u2") :: [("c.png", "u3")]) ∧
    primary_path c4Vault c4Result ∉ c4Vault.files.map Prod.fst ∧
    c4Vault.createFault (primary_path c4Vault c4Result) = none ∧
    cleanLinks c4Vault [("a.png", "u1")]
      (c4Vault.files.map Prod.fst ++ [primary_path c4Vault c4Result]) = true ∧
    FailStep c4Vault
      ((c4Vault.files.map Prod.fst ++ [primary_path c4Vault c4Result])
        ++ [("a.png", "u1")].map fun kv => pathJoin c4Vault.attachmentFolderPath kv.1)
      "b.png" "u2" ∧
    (∃ e : SaveErr,
      (save_result "ck" c4Result c4Vault).ret = .error e ∧
      (process_result "ck" (.structured c4Result) c4Vault).trace
        = (save_result "ck" c4Result c4Vault).trace
          ++ [Ev.alertShown (problemMessage e)] ∧
      countEv isClipboardEv
        (process_result "ck" (.structured c4Result) c4Vault).trace = 0 ∧
      countEv isNoticeEv (process_result "ck" (.structured c4Result) c4Vault).trace = 0 ∧
      countEv isAlertEv (process_result "ck" (.structured c4Result) c4Vault).trace = 1 ∧
      lookupContent (save_result "ck" c4Result c4Vault).files
          (primary_path c4Vault c4Result)
        = some (.text (result_data_of c4Result)) ∧
      countEv isFetchEv (save_result "ck" c4Result c4Vault).trace
        = [("a.png", "u1")].length + 1 ∧
      countEv isWriteOk (save_result "ck" c4Result c4Vault).trace
        = [("a.png", "u1")].length + 1) :=
  ⟨rfl, by decide, rfl, rfl, Or.inl ⟨"HTTP 500", rfl⟩,
    c4_attachment_failure_aborts "ck" c4Result c4Vault [("a.png", "u1")] [("c.png", "u3")]
      "b.png" "u2" rfl (by decide) rfl rfl (Or.inl ⟨"HTTP 500", rfl⟩)⟩

end ObsidianSlack